import Mathlib

/-!
Shallow embedding of the cache layer and the conversation handlers of
`bot.py` (the "flush-old" enigma bot).

The program keeps a dictionary `db` of named pandas DataFrames mirroring a
remote spreadsheet.  We model a cell as a tagged value (the sheets hold text
and integers), a DataFrame as a `Table` (a column count plus a list of rows;
pandas frames are rectangular, every row has exactly `ncols` cells), and the
dictionary as an association list from table names to tables.

Remote (gspread) calls are modelled by an effect trace plus a boolean
`remoteOk` saying whether the remote call succeeds; a failing remote call
raises in Python, which we model as an `Except` error while keeping the cache
state reached so far (Python mutates the global `db` before the remote call,
and an exception does not roll it back).  Python exceptions in general are
the `.error` results; the mutated-so-far state is always returned alongside.
-/

set_option autoImplicit false

namespace FlushOld

/-- A spreadsheet cell as the cache sees it: text or an integer. -/
inductive Value where
  | str (s : String)
  | int (n : Int)
deriving DecidableEq, Repr

/-- Python `str(...)` applied to a cell value. -/
def Value.toText : Value → String
  | .str s => s
  | .int n => toString n

/-- Python `int(...)` applied to a cell value: an integer is kept, a string is
parsed as a decimal integer, anything else raises (`none`). -/
def Value.toInt? : Value → Option Int
  | .int n => some n
  | .str s => s.toInt?

/-- Python truthiness of a cell value (`if row[...]`): a nonzero integer or a
nonempty string is truthy. -/
def Value.truthy : Value → Bool
  | .int n => n != 0
  | .str s => s != ""

/-- One DataFrame of the cache: the header width and the data rows (headers
excluded, as in the source's zero-based row addressing). -/
structure Table where
  ncols : Nat
  rows : List (List Value)
deriving DecidableEq, Repr

/-- The global `db` dictionary: table name to table. -/
abbrev DB := List (String × Table)

/-- Dictionary lookup `db[table_name]`: `none` models the Python `KeyError`. -/
def getTable? (db : DB) (name : String) : Option Table :=
  match db with
  | [] => none
  | p :: rest => if p.1 = name then some p.2 else getTable? rest name

/-- Replace the table stored under `name` (used after a mutation). -/
def setTable : DB → String → Table → DB
  | [], _, _ => []
  | p :: rest, name, t => (if p.1 = name then (name, t) else p) :: setTable rest name t

/-- One remote (gspread) call issued by the cache layer.  gspread only
understands text, so the source stringifies every value it sends. -/
inductive Effect where
  | appendRow (table : String) (data : List String)
  | updateCell (table : String) (row col : Nat) (value : String)
deriving DecidableEq, Repr

/-- The Python exceptions the embedded code can raise.  `remoteFailure` is a
gspread call raising after the cache was already mutated. -/
inductive Err where
  | keyError
  | indexError
  | valueError
  | typeError
  | remoteFailure
deriving DecidableEq, Repr

/-- Result of a mutating store operation: the Python return value (or the
exception), the cache state after the call, and the remote calls issued. -/
structure WriteRes (α : Type) where
  result : Except Err α
  db : DB
  effects : List Effect
deriving Repr

/-- Column-wise read used by `get_col`: the cell at index `col` of every row,
failing if some row is too short.  On the rectangular tables pandas builds
this succeeds exactly when `col` is within the header width. -/
def column? (col : Nat) : List (List Value) → Option (List Value)
  | [] => some []
  | r :: rest =>
    match r.get? col, column? col rest with
    | some v, some vs => some (v :: vs)
    | _, _ => none

/-- Python `list.index(v)` returning `none` for the `ValueError` when `v` is
absent, otherwise the first index holding `v`. -/
def idx_of? (l : List Value) (v : Value) : Option Nat :=
  match l with
  | [] => none
  | a :: rest => if a = v then some 0 else (idx_of? rest v).map (fun i => i + 1)

/-- `load_db` (bot.py:63-70): rebuild the whole cache from the remote
worksheets.  The dict comprehension reads every worksheet first and only then
assigns the global `db`, so a failing read (`none` for that worksheet) leaves
the previous cache in place.  `fetch_all` is the comprehension. -/
def fetch_all : List (String × Option Table) → Option DB
  | [] => some []
  | p :: rest =>
    match p.2, fetch_all rest with
    | some t, some d => some ((p.1, t) :: d)
    | _, _ => none

/-- `load_db` proper: on a fully successful fetch the cache is replaced by the
fresh tables (`true`), on any failed read it is kept unchanged (`false`). -/
def load_db (db : DB) (worksheets : List (String × Option Table)) : DB × Bool :=
  match fetch_all worksheets with
  | some fresh => (fresh, true)
  | none => (db, false)

/-- `append_row` (bot.py:73-91): `db[table].loc[len(db[table])] = row_data`
first (pandas raises `ValueError` on a width mismatch and mutates nothing),
then the remote append of the stringified row, then `len - 1` (the pre-append
row count) is returned. -/
def append_row (db : DB) (remoteOk : Bool) (name : String) (rowData : List Value) :
    WriteRes Nat :=
  match getTable? db name with
  | none => ⟨.error .keyError, db, []⟩
  | some t =>
    if rowData.length = t.ncols then
      ⟨if remoteOk then .ok t.rows.length else .error .remoteFailure,
       setTable db name ⟨t.ncols, t.rows ++ [rowData]⟩,
       [.appendRow name (rowData.map Value.toText)]⟩
    else ⟨.error .valueError, db, []⟩

/-- `update_cell` (bot.py:94-115): `db[table].iat[row, col] = new_value`
(pandas `IndexError` when out of bounds), then the remote update of cell
`(row + 2, col + 1)` (one-based, skipping the header row) with the
stringified value. -/
def update_cell (db : DB) (remoteOk : Bool) (name : String) (row col : Nat) (v : Value) :
    WriteRes Unit :=
  match getTable? db name with
  | none => ⟨.error .keyError, db, []⟩
  | some t =>
    match t.rows.get? row with
    | none => ⟨.error .indexError, db, []⟩
    | some r =>
      if col < r.length then
        ⟨if remoteOk then .ok () else .error .remoteFailure,
         setTable db name ⟨t.ncols, t.rows.set row (r.set col v)⟩,
         [.updateCell name (row + 2) (col + 1) v.toText]⟩
      else ⟨.error .indexError, db, []⟩

/-- `get_table` (bot.py:118-127): the cached rows as a list of lists. -/
def get_table (db : DB) (name : String) : Option (List (List Value)) :=
  (getTable? db name).map (fun t => t.rows)

/-- `get_row` (bot.py:130-141): `db[table].iloc[row]`. -/
def get_row (db : DB) (name : String) (row : Nat) : Option (List Value) :=
  match getTable? db name with
  | none => none
  | some t => t.rows.get? row

/-- `get_col` (bot.py:144-155): `db[table].iloc[:, col]`; out of range when
the column index is not below the header width. -/
def get_col (db : DB) (name : String) (col : Nat) : Option (List Value) :=
  match getTable? db name with
  | none => none
  | some t => if col < t.ncols then column? col t.rows else none

/-- `get_cell` (bot.py:158-172): `db[table].iat[row, col]`. -/
def get_cell (db : DB) (name : String) (row col : Nat) : Option Value :=
  match getTable? db name with
  | none => none
  | some t =>
    match t.rows.get? row with
    | none => none
    | some r => r.get? col

/-- `get_cell_last_cell_of_col` (bot.py:175-186): `iat[len - 1, col]`, an
`IndexError` on an empty table. -/
def get_cell_last_cell_of_col (db : DB) (name : String) (col : Nat) : Option Value :=
  match getTable? db name with
  | none => none
  | some t =>
    match t.rows.getLast? with
    | none => none
    | some r => r.get? col

/-! Table names, column indices and conversation states of bot.py:47-60. -/

def CONFIG_TABLE : String := "config"
def CONFIG_USERS_UUID_OFFSET : Nat := 1

def ENIGMA_TABLE : String := "enigma"
def ENIGMA_UUID : Nat := 0
def ENIGMA_NAME : Nat := 1
def ENIGMA_DESCRIPTION : Nat := 2
def ENIGMA_ANSWER : Nat := 3

def USERS_TABLE : String := "users"
def USERS_ID : Nat := 1
def USERS_FIRST_NAME : Nat := 2
def USERS_CURRENT_ENIGMA : Nat := 6

def USERS_ENIGMA_TABLE : String := "users_enigma"
def USERS_ENIGMA_UUID : Nat := 0
def USERS_ENIGMA_USER_ID : Nat := 2
def USERS_ENIGMA_ENIGMA_ID : Nat := 3
def USERS_ENIGMA_ATTEMPT_DATA : Nat := 4
def USERS_ENIGMA_VALIDATED : Nat := 5

/-- Conversation state `EXPECT_ENIGMA_ID` (0 in bot.py:47). -/
def EXPECT_ENIGMA_ID : Int := 0

/-- Conversation state `EXPECT_ANSWER_TO_ENIGMA` (1 in bot.py:47). -/
def EXPECT_ANSWER_TO_ENIGMA : Int := 1

/-- `telegram.ext.ConversationHandler.END` (-1): the conversation is over and
the user is back to the idle, no-conversation state. -/
def CONVERSATION_END : Int := -1

/-! The reply texts the handlers send (verbatim from bot.py). -/

def PROMPT_ENIGMA_ID : String :=
  "Please send me the id of the enigma you want to try to solve (or /cancel)"

def MSG_NOT_INT : String :=
  "The enigma id has to be an integer! Please send me a valid id"

def MSG_INVALID_ID : String :=
  "This id is not valid! Please send me a valid id"

def MSG_ALREADY_PRE : String :=
  "You have already found the answer to this enigma: <u>"

def MSG_ALREADY_POST : String := "</u>"

def MSG_SEND_ANSWER : String :=
  "Please send me the answer you think is correct! (or /cancel)"

def MSG_CONGRATS : String :=
  "Congratulations, you've found the right answer! Send /new_enigma to start a new one!"

def MSG_WRONG : String :=
  "Sorry, your answer is wrong... You can try again or send /cancel to stop trying."

def START_TAIL : String :=
  "\nPlease use /new_enigma to start guessing!\nYou can also use /help to see everything this bot can do!"

/-- The Telegram user attached to an incoming message (the fields the source
reads from `update.message.from_user`). -/
structure TgUser where
  id : Int
  first_name : String
  last_name : String
  username : String
deriving DecidableEq, Repr

/-- Result of running one conversation handler: cache state, remote calls
issued, replies sent, and the returned conversation state (or the exception
the handler raised). -/
structure HandlerRes where
  db : DB
  effects : List Effect
  sent : List String
  state : Except Err Int
deriving Repr

/-- `new_enigma` (bot.py:231-234): prompt for an enigma id and move to
`EXPECT_ENIGMA_ID`. -/
def new_enigma (db : DB) : HandlerRes :=
  ⟨db, [], [PROMPT_ENIGMA_ID], .ok EXPECT_ENIGMA_ID⟩

/-- Unicode decimal digits (category Nd) as far as this development needs
them: the characters Python `int(...)` converts.  Modelled ranges: ASCII,
Arabic-Indic (U+0660..U+0669), Devanagari (U+0966..U+096F) and fullwidth
(U+FF10..U+FF19) digits. -/
def pyCharIsDecimal (c : Char) : Bool :=
  c.isDigit ||
  (0x660 ≤ c.toNat && c.toNat ≤ 0x669) ||
  (0x966 ≤ c.toNat && c.toNat ≤ 0x96F) ||
  (0xFF10 ≤ c.toNat && c.toNat ≤ 0xFF19)

/-- Characters Python `str.isdigit` accepts (Numeric_Type Digit or Decimal):
the decimal digits of `pyCharIsDecimal` plus digit-valued characters that
`int(...)` rejects — the superscript digits U+00B9, U+00B2, U+00B3, U+2070
and U+2074..U+2079, and the subscript digits U+2080..U+2089. -/
def pyCharIsDigit (c : Char) : Bool :=
  pyCharIsDecimal c ||
  c.toNat = 0xB9 || c.toNat = 0xB2 || c.toNat = 0xB3 ||
  c.toNat = 0x2070 || (0x2074 ≤ c.toNat && c.toNat ≤ 0x2079) ||
  (0x2080 ≤ c.toNat && c.toNat ≤ 0x2089)

/-- Python `str.isdigit`: nonempty and every character a digit.  A string can
pass this test and still make `int(...)` raise — "\u00B2" does. -/
def pyStrIsDigit (s : String) : Bool :=
  s.data ≠ [] && s.data.all pyCharIsDigit

/-- The purely ASCII case: nonempty and all ASCII decimal digits.  On such
strings Python `isdigit` and `int` both succeed (`pyIsDigit_ascii_case`), so
theorems about the integer path take it as their hypothesis. -/
def pyIsDigit (s : String) : Bool :=
  s.data ≠ [] && s.data.all Char.isDigit

/-- The decimal value of one `pyCharIsDecimal` character. -/
def pyCharDecVal (c : Char) : Nat :=
  if c.isDigit then c.toNat - 48
  else if 0x660 ≤ c.toNat && c.toNat ≤ 0x669 then c.toNat - 0x660
  else if 0x966 ≤ c.toNat && c.toNat ≤ 0x96F then c.toNat - 0x966
  else if 0xFF10 ≤ c.toNat && c.toNat ≤ 0xFF19 then c.toNat - 0xFF10
  else 0

/-- Python `int(text)` on a string of decimal digits: its base-ten value. -/
def pyToNat (s : String) : Nat :=
  s.data.foldl (fun n c => n * 10 + pyCharDecVal c) 0

/-- Helper of `pySplit`: strip `sep` from the front of `l` when it is a
prefix. -/
def dropSep? : List Char → List Char → Option (List Char)
  | [], l => some l
  | _ :: _, [] => none
  | s :: ss, c :: cs => if c = s then dropSep? ss cs else none

/-- Helper of `pySplit`: left-to-right scan cutting at every non-overlapping
occurrence of `sep`; the fuel argument (seeded above the input length) only
makes the recursion structural. -/
def pySplitAux (sep : List Char) : Nat → List Char → List Char → List (List Char)
  | 0, acc, _ => [acc.reverse]
  | fuel + 1, acc, l =>
    match dropSep? sep l with
    | some rest => acc.reverse :: pySplitAux sep fuel [] rest
    | none =>
      match l with
      | [] => [acc.reverse]
      | c :: cs => pySplitAux sep fuel (c :: acc) cs

/-- Python `text.split(sep)` for a nonempty separator: split on every
non-overlapping occurrence, keeping empty tokens, `[""]` for the empty
string. -/
def pySplit (s sep : String) : List String :=
  (pySplitAux sep.data (s.data.length + 1) [] s.data).map String.mk

/-- `construct_enigma_message` (bot.py:237-253): the three-part HTML message
for an enigma id.  `''.join` and `'\n'.join` raise `TypeError` when the name
or description cell is not a string. -/
def construct_enigma_message (db : DB) (enigma_id : Int) : Except Err String :=
  match get_col db ENIGMA_TABLE ENIGMA_UUID with
  | none => .error .indexError
  | some enigma_ids =>
    match idx_of? enigma_ids (.int enigma_id) with
    | none => .error .valueError
    | some i =>
      match get_cell db ENIGMA_TABLE i ENIGMA_NAME with
      | none => .error .indexError
      | some (.int _) => .error .typeError
      | some (.str nm) =>
        match get_cell db ENIGMA_TABLE i ENIGMA_DESCRIPTION with
        | none => .error .indexError
        | some (.int _) => .error .typeError
        | some (.str ds) =>
          .ok (String.intercalate "\n"
            ["<i>Enigma " ++ toString enigma_id ++ "</i>", "<b>" ++ nm ++ "</b>", ds])

/-- The filter predicate of bot.py:272-274: an attempt row of this user, for
this enigma, whose validated cell is truthy.  The pandas tables are
rectangular, so reading a missing cell with a falsy, never-equal default
models the row indexing. -/
def attemptMatches (uid enigma_id : Int) (row : List Value) : Bool :=
  (row.getD USERS_ENIGMA_USER_ID (.str "") == Value.int uid &&
    row.getD USERS_ENIGMA_ENIGMA_ID (.str "") == Value.int enigma_id) &&
  (row.getD USERS_ENIGMA_VALIDATED (.str "")).truthy

/-- `confirm_and_send_enigma` (bot.py:256-287): validate the submitted enigma
id, short-circuit on an id the user already solved, otherwise set the user's
`current_enigma` cell and send the enigma.  The guard is Python `isdigit`;
`int(update.message.text)` at bot.py:262 then raises `ValueError` — with no
reply sent — when the digits are not decimal ones (superscripts such as
"\u00B2" pass `isdigit` but `int` rejects them). -/
def confirm_and_send_enigma (db : DB) (remoteOk : Bool) (uid : Int) (text : String) :
    HandlerRes :=
  if pyStrIsDigit text then
   if text.data.all pyCharIsDecimal then
    let enigma_id : Int := Int.ofNat (pyToNat text)
    match get_col db ENIGMA_TABLE ENIGMA_UUID with
      | none => ⟨db, [], [], .error .indexError⟩
      | some enigma_ids =>
        if Value.int enigma_id ∉ enigma_ids then
          ⟨db, [], [MSG_INVALID_ID, PROMPT_ENIGMA_ID], .ok EXPECT_ENIGMA_ID⟩
        else
          match get_table db USERS_ENIGMA_TABLE with
          | none => ⟨db, [], [], .error .keyError⟩
          | some attempts =>
            match attempts.filter (attemptMatches uid enigma_id) with
            | prev0 :: _ =>
              match construct_enigma_message db enigma_id with
              | .error e => ⟨db, [], [], .error e⟩
              | .ok msg =>
                ⟨db, [],
                 [msg,
                  MSG_ALREADY_PRE ++
                    (prev0.getD USERS_ENIGMA_ATTEMPT_DATA (.str "")).toText ++
                    MSG_ALREADY_POST,
                  PROMPT_ENIGMA_ID],
                 .ok EXPECT_ENIGMA_ID⟩
            | [] =>
              match get_col db USERS_TABLE USERS_ID with
              | none => ⟨db, [], [], .error .indexError⟩
              | some user_ids =>
                match idx_of? user_ids (.int uid) with
                | none => ⟨db, [], [], .error .valueError⟩
                | some i =>
                  let w := update_cell db remoteOk USERS_TABLE i USERS_CURRENT_ENIGMA
                    (.int enigma_id)
                  match w.result with
                  | .error e => ⟨w.db, w.effects, [], .error e⟩
                  | .ok _ =>
                    match construct_enigma_message w.db enigma_id with
                    | .error e => ⟨w.db, w.effects, [], .error e⟩
                    | .ok msg =>
                      ⟨w.db, w.effects, [msg, MSG_SEND_ANSWER], .ok EXPECT_ANSWER_TO_ENIGMA⟩
   else
    ⟨db, [], [], .error .valueError⟩
  else
    ⟨db, [], [MSG_NOT_INT, PROMPT_ENIGMA_ID], .ok EXPECT_ENIGMA_ID⟩

/-- `validate_enigma` (bot.py:290-315): compare the submitted text with the
current enigma's answer tokens (case-sensitive split on the literal ", "),
congratulate or apologize, log the attempt, and end or stay.  The source
recomputes `get_col(USERS_TABLE, USERS_ID).index(...)` before its
`update_cell` on the then-unchanged cache, which yields the same index `i`
again, so the embedding reuses it. -/
def validate_enigma (db : DB) (remoteOk : Bool) (uid : Int) (text : String) :
    HandlerRes :=
  match get_col db USERS_TABLE USERS_ID with
  | none => ⟨db, [], [], .error .indexError⟩
  | some user_ids =>
    match idx_of? user_ids (.int uid) with
    | none => ⟨db, [], [], .error .valueError⟩
    | some i =>
      match get_cell db USERS_TABLE i USERS_CURRENT_ENIGMA with
      | none => ⟨db, [], [], .error .indexError⟩
      | some cur =>
        match get_col db ENIGMA_TABLE ENIGMA_UUID with
        | none => ⟨db, [], [], .error .indexError⟩
        | some enigma_ids =>
          match idx_of? enigma_ids cur with
          | none => ⟨db, [], [], .error .valueError⟩
          | some j =>
            match get_cell db ENIGMA_TABLE j ENIGMA_ANSWER with
            | none => ⟨db, [], [], .error .indexError⟩
            | some ans =>
              if text ∈ pySplit (Value.toText ans) ", " then
                let w := update_cell db remoteOk USERS_TABLE i USERS_CURRENT_ENIGMA (.int 0)
                match w.result with
                | .error e => ⟨w.db, w.effects, [MSG_CONGRATS], .error e⟩
                | .ok _ =>
                  match get_cell_last_cell_of_col w.db USERS_ENIGMA_TABLE USERS_ENIGMA_UUID with
                  | none => ⟨w.db, w.effects, [MSG_CONGRATS], .error .indexError⟩
                  | some lastU =>
                    let a := append_row w.db remoteOk USERS_ENIGMA_TABLE
                      [lastU, .int 0, .int uid, cur, .str text, .int 1]
                    match a.result with
                    | .error e => ⟨a.db, w.effects ++ a.effects, [MSG_CONGRATS], .error e⟩
                    | .ok _ =>
                      ⟨a.db, w.effects ++ a.effects, [MSG_CONGRATS], .ok CONVERSATION_END⟩
              else
                match get_cell_last_cell_of_col db USERS_ENIGMA_TABLE USERS_ENIGMA_UUID with
                | none => ⟨db, [], [MSG_WRONG], .error .indexError⟩
                | some lastU =>
                  let a := append_row db remoteOk USERS_ENIGMA_TABLE
                    [lastU, .int 0, .int uid, cur, .str text, .int 0]
                  match a.result with
                  | .error e => ⟨a.db, a.effects, [MSG_WRONG], .error e⟩
                  | .ok _ =>
                    ⟨a.db, a.effects, [MSG_WRONG], .ok EXPECT_ANSWER_TO_ENIGMA⟩

/-- `register_new_user` (bot.py:189-207): read the next uuid from the config
table, append the user row `[uuid, id, first, last, username, 0, 0]`, then
increment the stored uuid. -/
def register_new_user (db : DB) (remoteOk : Bool) (u : TgUser) : WriteRes Unit :=
  match get_cell db CONFIG_TABLE 0 CONFIG_USERS_UUID_OFFSET with
  | none => ⟨.error .indexError, db, []⟩
  | some c =>
    match c.toInt? with
    | none => ⟨.error .valueError, db, []⟩
    | some uuid_offset =>
      let a := append_row db remoteOk USERS_TABLE
        [.int uuid_offset, .int u.id, .str u.first_name, .str u.last_name,
         .str u.username, .int 0, .int 0]
      match a.result with
      | .error e => ⟨.error e, a.db, a.effects⟩
      | .ok _ =>
        let w := update_cell a.db remoteOk CONFIG_TABLE 0 CONFIG_USERS_UUID_OFFSET
          (.int (uuid_offset + 1))
        ⟨w.result, w.db, a.effects ++ w.effects⟩

/-- Result of the `start` handler (it returns `None`, so only the cache, the
remote calls, the replies and a possible exception are observable). -/
structure StartRes where
  db : DB
  effects : List Effect
  sent : List String
  result : Except Err Unit
deriving Repr

/-- `start` (bot.py:210-228): greet a known platform id, register an unknown
one.  `"Welcome back " + cell` raises `TypeError` on a non-string cell. -/
def start (db : DB) (remoteOk : Bool) (u : TgUser) : StartRes :=
  match get_col db USERS_TABLE USERS_ID with
  | none => ⟨db, [], [], .error .indexError⟩
  | some user_ids =>
    match idx_of? user_ids (.int u.id) with
    | some i =>
      match get_cell db USERS_TABLE i USERS_FIRST_NAME with
      | none => ⟨db, [], [], .error .indexError⟩
      | some (.int _) => ⟨db, [], [], .error .typeError⟩
      | some (.str fn) =>
        ⟨db, [], ["Welcome back " ++ fn ++ START_TAIL], .ok ()⟩
    | none =>
      let r := register_new_user db remoteOk u
      match r.result with
      | .error e => ⟨r.db, r.effects, [], .error e⟩
      | .ok _ =>
        ⟨r.db, r.effects, ["Welcome " ++ u.first_name ++ START_TAIL], .ok ()⟩

/-- A finite sequence of `/start` commands, each with its own remote outcome,
run left to right against the cache. -/
def startSeq : DB → List (Bool × TgUser) → DB
  | db, [] => db
  | db, c :: rest => startSeq (start db c.1 c.2).db rest

/-- The C3 invariant: whenever the users id column is readable, no platform
id value occurs in it twice. -/
def UsersIdsNodup (db : DB) : Prop :=
  ∀ ids, get_col db USERS_TABLE USERS_ID = some ids → ids.Nodup

/-! Helper lemmas about the store primitives. -/

theorem getTable?_setTable_self (db : DB) (n : String) (t t0 : Table)
    (h : getTable? db n = some t0) : getTable? (setTable db n t) n = some t := by
  induction db with
  | nil => simp [getTable?] at h
  | cons p rest ih =>
    by_cases hp : p.1 = n
    · simp [getTable?, setTable, hp]
    · simp only [getTable?, if_neg hp] at h
      simp only [setTable, if_neg hp, getTable?]
      exact ih h

theorem getTable?_setTable_ne (db : DB) (n m : String) (t : Table) (h : m ≠ n) :
    getTable? (setTable db n t) m = getTable? db m := by
  induction db with
  | nil => simp [getTable?, setTable]
  | cons p rest ih =>
    by_cases hp : p.1 = n
    · simp only [setTable, if_pos hp, getTable?]
      rw [if_neg (fun hnm => h hnm.symm), if_neg (hp ▸ fun hpm => h hpm.symm)]
      exact ih
    · simp only [setTable, if_neg hp, getTable?]
      by_cases hpm : p.1 = m
      · rw [if_pos hpm, if_pos hpm]
      · rw [if_neg hpm, if_neg hpm]
        exact ih

theorem list_get?_concat {α : Type} (l : List α) (a : α) :
    (l ++ [a]).get? l.length = some a := by
  induction l with
  | nil => rfl
  | cons b rest ih =>
    rw [List.cons_append, List.length_cons]
    exact ih

theorem list_getLast?_concat {α : Type} (l : List α) (a : α) :
    (l ++ [a]).getLast? = some a := by
  induction l with
  | nil => rfl
  | cons b rest ih =>
    cases rest with
    | nil => rfl
    | cons c rest2 =>
      rw [List.cons_append, List.cons_append, List.getLast?_cons_cons]
      rw [List.cons_append] at ih
      exact ih

theorem list_get?_set_self {α : Type} (l : List α) (i : Nat) (a : α)
    (h : i < l.length) : (l.set i a).get? i = some a := by
  induction l generalizing i with
  | nil => simp at h
  | cons b rest ih =>
    cases i with
    | zero => rfl
    | succ k =>
      simp only [List.set, List.get?]
      exact ih k (by simpa using h)

theorem list_get?_lt {α : Type} (l : List α) (i : Nat) (a : α)
    (h : l.get? i = some a) : i < l.length := by
  induction l generalizing i with
  | nil => simp [List.get?] at h
  | cons b rest ih =>
    cases i with
    | zero => simp
    | succ k =>
      simp only [List.get?] at h
      have := ih k h
      simpa using Nat.succ_lt_succ this

theorem column?_concat (c : Nat) (rows : List (List Value)) (vs : List Value)
    (r : List Value) (v : Value) (h1 : column? c rows = some vs)
    (h2 : r.get? c = some v) : column? c (rows ++ [r]) = some (vs ++ [v]) := by
  induction rows generalizing vs with
  | nil =>
    simp only [column?] at h1
    cases h1
    simp only [List.nil_append, column?, h2]
  | cons r0 rest ih =>
    simp only [column?] at h1
    cases h0 : r0.get? c with
    | none => rw [h0] at h1; simp at h1
    | some v0 =>
      rw [h0] at h1
      cases hrest : column? c rest with
      | none => rw [hrest] at h1; simp at h1
      | some vs0 =>
        rw [hrest] at h1
        simp only [Option.some.injEq] at h1
        cases h1
        have hrec := ih vs0 hrest
        have h0g : r0[c]? = some v0 := by rw [← List.get?_eq_getElem?]; exact h0
        simp [List.cons_append, column?, h0, h0g, hrec]

theorem idx_of?_eq_none (l : List Value) (v : Value) :
    idx_of? l v = none ↔ v ∉ l := by
  induction l with
  | nil => simp [idx_of?]
  | cons a rest ih =>
    by_cases ha : a = v
    · simp [idx_of?, ha]
    · have hva : ¬ v = a := fun hv => ha hv.symm
      simp [idx_of?, ha, ih, hva]

theorem nodup_concat (l : List Value) (a : Value) (h1 : l.Nodup) (h2 : a ∉ l) :
    (l ++ [a]).Nodup := by
  rw [List.nodup_append]
  refine ⟨h1, List.nodup_singleton a, ?_⟩
  intro x hx hxa
  rw [List.mem_singleton] at hxa
  exact h2 (hxa ▸ hx)

theorem pyIsDigit_ascii_case (s : String) (h : pyIsDigit s = true) :
    pyStrIsDigit s = true ∧ s.data.all pyCharIsDecimal = true := by
  rw [pyIsDigit, Bool.and_eq_true] at h
  obtain ⟨hne, hall⟩ := h
  rw [List.all_eq_true] at hall
  have hdec : s.data.all pyCharIsDecimal = true := by
    rw [List.all_eq_true]
    intro c hc
    have hd := hall c hc
    simp only [pyCharIsDecimal, hd, Bool.true_or]
  refine ⟨?_, hdec⟩
  rw [pyStrIsDigit, Bool.and_eq_true]
  refine ⟨hne, ?_⟩
  rw [List.all_eq_true]
  intro c hc
  have hd := hall c hc
  simp only [pyCharIsDigit, pyCharIsDecimal, hd, Bool.true_or]

theorem get_col_some_elim (db : DB) (n : String) (c : Nat) (ids : List Value)
    (h : get_col db n c = some ids) :
    ∃ t, getTable? db n = some t ∧ c < t.ncols ∧ column? c t.rows = some ids := by
  unfold get_col at h
  split at h
  · exact absurd h (by simp)
  · next t hT =>
    by_cases hc : c < t.ncols
    · rw [if_pos hc] at h
      exact ⟨t, hT, hc, h⟩
    · rw [if_neg hc] at h
      exact absurd h (by simp)

theorem update_cell_eq (db : DB) (ok : Bool) (name : String) (row col : Nat)
    (v : Value) (t : Table) (r : List Value) (ht : getTable? db name = some t)
    (hr : t.rows.get? row = some r) (hc : col < r.length) :
    update_cell db ok name row col v =
      ⟨if ok then .ok () else .error .remoteFailure,
       setTable db name ⟨t.ncols, t.rows.set row (r.set col v)⟩,
       [.updateCell name (row + 2) (col + 1) v.toText]⟩ := by
  simp only [update_cell, ht, hr, if_pos hc]

theorem append_row_eq (db : DB) (ok : Bool) (name : String) (data : List Value)
    (t : Table) (ht : getTable? db name = some t) (hw : data.length = t.ncols) :
    append_row db ok name data =
      ⟨if ok then .ok t.rows.length else .error .remoteFailure,
       setTable db name ⟨t.ncols, t.rows ++ [data]⟩,
       [.appendRow name (data.map Value.toText)]⟩ := by
  simp only [append_row, ht, if_pos hw]

theorem get_col_update_cell_ne (db : DB) (ok : Bool) (n m : String) (row col c : Nat)
    (v : Value) (h : m ≠ n) :
    get_col (update_cell db ok n row col v).db m c = get_col db m c := by
  unfold update_cell
  split
  · rfl
  · next t hT =>
    split
    · rfl
    · next r hr =>
      split
      · next hc =>
        show get_col (setTable db n ⟨t.ncols, t.rows.set row (r.set col v)⟩) m c =
          get_col db m c
        unfold get_col
        rw [getTable?_setTable_ne db n m _ h]
      · rfl

/-! Concrete sample tables used by the witnesses: one registered user (platform
id 111) whose current enigma is enigma 7, whose answer cell is "foo, bar". -/

def sampleConfig : Table := ⟨2, [[.int 0, .int 5]]⟩

def sampleEnigma : Table :=
  ⟨6, [[.int 7, .str "N", .str "D", .str "foo, bar", .str "auth", .str ""]]⟩

def sampleUsers : Table :=
  ⟨7, [[.int 0, .int 111, .str "A", .str "B", .str "ab", .int 0, .int 7]]⟩

def sampleAttempts : Table :=
  ⟨6, [[.int 3, .int 0, .int 111, .int 9, .str "x", .int 1]]⟩

def sampleDB : DB :=
  [(CONFIG_TABLE, sampleConfig), (ENIGMA_TABLE, sampleEnigma),
   (USERS_TABLE, sampleUsers), (USERS_ENIGMA_TABLE, sampleAttempts)]

/-! The claims. -/

/-- C2: for every table present in the cache and every row of matching width,
`append_row` returns (when the remote call succeeds) an index equal to the
table's row count before the append, and for any remote outcome — success or
failure — the appended row is immediately visible through `get_row` at that
index: the cache mutation happens before the remote call and is not rolled
back. -/
theorem append_row_index_and_visibility (db : DB) (ok : Bool) (name : String)
    (data : List Value) (t : Table) (ht : getTable? db name = some t)
    (hw : data.length = t.ncols) :
    (ok = true → (append_row db ok name data).result = .ok t.rows.length) ∧
    get_row (append_row db ok name data).db name t.rows.length = some data := by
  rw [append_row_eq db ok name data t ht hw]
  constructor
  · intro hok
    rw [hok]
    rfl
  · show get_row (setTable db name ⟨t.ncols, t.rows ++ [data]⟩) name t.rows.length =
      some data
    have hT2 := getTable?_setTable_self db name ⟨t.ncols, t.rows ++ [data]⟩ t ht
    simp only [get_row, hT2]
    exact list_get?_concat t.rows data

/-- Witness for C2: appending a sixth-width row to the one-row sample attempt
table returns index 1 and the row is readable there, and the cache keeps the
row even when the remote append fails. -/
theorem append_row_index_and_visibility_witness :
    (append_row sampleDB true USERS_ENIGMA_TABLE
      [.int 4, .int 0, .int 111, .int 7, .str "y", .int 0]).result = .ok 1 ∧
    get_row (append_row sampleDB true USERS_ENIGMA_TABLE
      [.int 4, .int 0, .int 111, .int 7, .str "y", .int 0]).db USERS_ENIGMA_TABLE 1 =
      some [.int 4, .int 0, .int 111, .int 7, .str "y", .int 0] ∧
    get_row (append_row sampleDB false USERS_ENIGMA_TABLE
      [.int 4, .int 0, .int 111, .int 7, .str "y", .int 0]).db USERS_ENIGMA_TABLE 1 =
      some [.int 4, .int 0, .int 111, .int 7, .str "y", .int 0] := by
  have h1 := append_row_index_and_visibility sampleDB true USERS_ENIGMA_TABLE
    [.int 4, .int 0, .int 111, .int 7, .str "y", .int 0] sampleAttempts rfl rfl
  have h2 := append_row_index_and_visibility sampleDB false USERS_ENIGMA_TABLE
    [.int 4, .int 0, .int 111, .int 7, .str "y", .int 0] sampleAttempts rfl rfl
  exact ⟨h1.1 rfl, h1.2, h2.2⟩

/-- C9: `append_row` with a row whose width differs from the table's header
width fails with the pandas `ValueError`, leaves the cached table unchanged,
and issues no remote append. -/
theorem append_row_width_guard (db : DB) (ok : Bool) (name : String)
    (data : List Value) (t : Table) (ht : getTable? db name = some t)
    (hw : data.length ≠ t.ncols) :
    append_row db ok name data = ⟨.error .valueError, db, []⟩ := by
  simp only [append_row, ht, if_neg hw]

/-- Witness for C9: a one-cell row cannot be appended to the six-column
attempt table; nothing changes and nothing is sent to the remote store. -/
theorem append_row_width_guard_witness :
    append_row sampleDB true USERS_ENIGMA_TABLE [.int 1] =
      ⟨.error .valueError, sampleDB, []⟩ :=
  append_row_width_guard sampleDB true USERS_ENIGMA_TABLE [.int 1] sampleAttempts
    rfl (by decide)

/-- C5: for a valid (table, row, col) triple, `update_cell` followed by
`get_cell` at the same coordinates returns the written value, and the remote
update issued addresses the one-based remote cell `(row + 2, col + 1)`. -/
theorem update_cell_then_get_cell (db : DB) (ok : Bool) (name : String)
    (row col : Nat) (v : Value) (t : Table) (r : List Value)
    (ht : getTable? db name = some t) (hr : t.rows.get? row = some r)
    (hc : col < r.length) :
    get_cell (update_cell db ok name row col v).db name row col = some v ∧
    (update_cell db ok name row col v).effects =
      [Effect.updateCell name (row + 2) (col + 1) v.toText] := by
  rw [update_cell_eq db ok name row col v t r ht hr hc]
  constructor
  · show get_cell (setTable db name ⟨t.ncols, t.rows.set row (r.set col v)⟩) name row col =
      some v
    have hT2 := getTable?_setTable_self db name
      ⟨t.ncols, t.rows.set row (r.set col v)⟩ t ht
    have h1 : (t.rows.set row (r.set col v)).get? row = some (r.set col v) :=
      list_get?_set_self t.rows row (r.set col v) (list_get?_lt t.rows row r hr)
    have h2 : (r.set col v).get? col = some v := list_get?_set_self r col v hc
    simp only [get_cell, hT2, h1, h2]
  · rfl

/-- Witness for C5: writing 0 into the sample user's current-enigma cell is
read back, and the remote update addresses cell (2, 7) for the zero-based
coordinates (0, 6). -/
theorem update_cell_then_get_cell_witness :
    get_cell (update_cell sampleDB true USERS_TABLE 0 6 (.int 0)).db
      USERS_TABLE 0 6 = some (.int 0) ∧
    (update_cell sampleDB true USERS_TABLE 0 6 (.int 0)).effects =
      [Effect.updateCell USERS_TABLE 2 7 "0"] :=
  update_cell_then_get_cell sampleDB true USERS_TABLE 0 6 (.int 0) sampleUsers
    [.int 0, .int 111, .str "A", .str "B", .str "ab", .int 0, .int 7]
    rfl rfl (by decide)

/-- A fully successful fetch yields a fresh cache. -/
theorem fetch_all_some_of_forall (ws : List (String × Option Table))
    (h : ∀ p ∈ ws, (p.2).isSome) : ∃ fresh, fetch_all ws = some fresh := by
  induction ws with
  | nil => exact ⟨[], rfl⟩
  | cons p rest ih =>
    obtain ⟨fresh, hf⟩ := ih (fun q hq => h q (List.mem_cons_of_mem p hq))
    have hp := h p (List.mem_cons_self p rest)
    cases hp2 : p.2 with
    | none => rw [hp2] at hp; cases hp
    | some t => exact ⟨(p.1, t) :: fresh, by simp only [fetch_all, hp2, hf]⟩

/-- The fresh cache is exactly the fetched tables, name by name. -/
theorem fetch_all_forall₂ (ws : List (String × Option Table)) (fresh : DB)
    (h : fetch_all ws = some fresh) :
    List.Forall₂ (fun (q : String × Table) (p : String × Option Table) =>
      q.1 = p.1 ∧ p.2 = some q.2) fresh ws := by
  induction ws generalizing fresh with
  | nil =>
    simp only [fetch_all, Option.some.injEq] at h
    cases h
    exact List.Forall₂.nil
  | cons p rest ih =>
    simp only [fetch_all] at h
    cases hp2 : p.2 with
    | none => rw [hp2] at h; cases h
    | some t =>
      rw [hp2] at h
      cases hf : fetch_all rest with
      | none => rw [hf] at h; cases h
      | some d =>
        rw [hf] at h
        simp only [Option.some.injEq] at h
        cases h
        exact List.Forall₂.cons ⟨rfl, hp2⟩ (ih d hf)

/-- A single failed worksheet read fails the whole fetch. -/
theorem fetch_all_none_of_exists (ws : List (String × Option Table))
    (h : ∃ p ∈ ws, p.2 = none) : fetch_all ws = none := by
  induction ws with
  | nil => obtain ⟨p, hp, _⟩ := h; cases hp
  | cons q rest ih =>
    obtain ⟨p, hp, hnone⟩ := h
    rcases List.mem_cons.mp hp with hq | hrest
    · cases hq
      simp only [fetch_all, hnone]
    · rw [fetch_all, ih ⟨p, hrest, hnone⟩]
      cases q.2 <;> rfl

/-- C6: the full reload is all-or-nothing.  When every remote table read
succeeds, `load_db` replaces the whole cache in one step with exactly the
fetched tables; when any read fails, the reload reports failure and the
previous cache is retained unchanged. -/
theorem load_db_all_or_nothing (db : DB) (ws : List (String × Option Table)) :
    ((∀ p ∈ ws, (p.2).isSome) →
      ∃ fresh, fetch_all ws = some fresh ∧ load_db db ws = (fresh, true)) ∧
    (∀ fresh, fetch_all ws = some fresh →
      List.Forall₂ (fun (q : String × Table) (p : String × Option Table) =>
        q.1 = p.1 ∧ p.2 = some q.2) fresh ws) ∧
    ((∃ p ∈ ws, p.2 = none) → load_db db ws = (db, false)) := by
  refine ⟨?_, ?_, ?_⟩
  · intro h
    obtain ⟨fresh, hf⟩ := fetch_all_some_of_forall ws h
    exact ⟨fresh, hf, by simp only [load_db, hf]⟩
  · intro fresh hf
    exact fetch_all_forall₂ ws fresh hf
  · intro h
    simp only [load_db, fetch_all_none_of_exists ws h]

/-- Witness for C6: a two-table fetch with both reads succeeding replaces the
sample cache, and the same fetch with one failed read keeps it unchanged. -/
theorem load_db_all_or_nothing_witness :
    (∃ fresh, fetch_all [("a", some sampleConfig), ("b", some sampleUsers)] = some fresh ∧
      load_db sampleDB [("a", some sampleConfig), ("b", some sampleUsers)] = (fresh, true)) ∧
    load_db sampleDB [("a", some sampleConfig), ("b", (none : Option Table))] =
      (sampleDB, false) := by
  have h1 := load_db_all_or_nothing sampleDB
    [("a", some sampleConfig), ("b", some sampleUsers)]
  have h2 := load_db_all_or_nothing sampleDB
    [("a", some sampleConfig), ("b", (none : Option Table))]
  exact ⟨h1.1 (by intro p hp; fin_cases hp <;> rfl),
    h2.2.2 ⟨("b", none), by simp, rfl⟩⟩

/-- When the users id column is unreadable, `start` raises before any
mutation. -/
theorem start_db_of_none (db : DB) (ok : Bool) (u : TgUser)
    (hcol : get_col db USERS_TABLE USERS_ID = none) : (start db ok u).db = db := by
  simp only [start, hcol]

/-- When the sender's platform id is already in the users id column, `start`
only builds a greeting: no table is mutated on any branch. -/
theorem start_db_of_mem (db : DB) (ok : Bool) (u : TgUser) (ids : List Value)
    (hcol : get_col db USERS_TABLE USERS_ID = some ids)
    (hmem : Value.int u.id ∈ ids) : (start db ok u).db = db := by
  cases hidx : idx_of? ids (Value.int u.id) with
  | none => exact absurd hmem ((idx_of?_eq_none ids (Value.int u.id)).mp hidx)
  | some i =>
    cases hcell : get_cell db USERS_TABLE i USERS_FIRST_NAME with
    | none => simp only [start, hcol, hidx, hcell]
    | some v =>
      cases v with
      | int m => simp only [start, hcol, hidx, hcell]
      | str s => simp only [start, hcol, hidx, hcell]

/-- How one `start` call can change the users id column: either it is left
exactly as it was, or the caller's id was absent and is appended at the end. -/
theorem start_ids_col (db : DB) (ok : Bool) (u : TgUser) (ids : List Value)
    (hcol : get_col db USERS_TABLE USERS_ID = some ids) :
    get_col (start db ok u).db USERS_TABLE USERS_ID = some ids ∨
    (Value.int u.id ∉ ids ∧
     get_col (start db ok u).db USERS_TABLE USERS_ID =
       some (ids ++ [Value.int u.id])) := by
  cases hidx : idx_of? ids (Value.int u.id) with
  | some i =>
    left
    rw [start_db_of_mem db ok u ids hcol (by
      by_contra hnm
      rw [(idx_of?_eq_none ids (Value.int u.id)).mpr hnm] at hidx
      cases hidx)]
    exact hcol
  | none =>
    have hnm : Value.int u.id ∉ ids := (idx_of?_eq_none ids (Value.int u.id)).mp hidx
    cases hcfg : get_cell db CONFIG_TABLE 0 CONFIG_USERS_UUID_OFFSET with
    | none =>
      left
      simp only [start, hcol, hidx, register_new_user, hcfg]
    | some c =>
      cases hti : c.toInt? with
      | none =>
        left
        simp only [start, hcol, hidx, register_new_user, hcfg, hti]
      | some off =>
        obtain ⟨t, hT, hlt, hcolumn⟩ := get_col_some_elim db USERS_TABLE USERS_ID ids hcol
        by_cases hw : ([Value.int off, .int u.id, .str u.first_name, .str u.last_name,
            .str u.username, .int 0, .int 0] : List Value).length = t.ncols
        · right
          refine ⟨hnm, ?_⟩
          have ha := append_row_eq db ok USERS_TABLE
            [Value.int off, .int u.id, .str u.first_name, .str u.last_name,
             .str u.username, .int 0, .int 0] t hT hw
          have hT2 := getTable?_setTable_self db USERS_TABLE
            ⟨t.ncols, t.rows ++ [[Value.int off, .int u.id, .str u.first_name,
              .str u.last_name, .str u.username, .int 0, .int 0]]⟩ t hT
          have hcol1 : get_col (setTable db USERS_TABLE
              ⟨t.ncols, t.rows ++ [[Value.int off, .int u.id, .str u.first_name,
                .str u.last_name, .str u.username, .int 0, .int 0]]⟩)
              USERS_TABLE USERS_ID = some (ids ++ [Value.int u.id]) := by
            simp only [get_col, hT2]
            rw [if_pos hlt]
            exact column?_concat USERS_ID t.rows ids _ (Value.int u.id) hcolumn rfl
          cases ok with
          | false =>
            simp only [start, hcol, hidx, register_new_user, hcfg, hti, ha]
            exact hcol1
          | true =>
            simp only [start, hcol, hidx, register_new_user, hcfg, hti, ha]
            have hfin : get_col (update_cell (setTable db USERS_TABLE
                ⟨t.ncols, t.rows ++ [[Value.int off, .int u.id, .str u.first_name,
                  .str u.last_name, .str u.username, .int 0, .int 0]]⟩) true
                CONFIG_TABLE 0 CONFIG_USERS_UUID_OFFSET (.int (off + 1))).db
                USERS_TABLE USERS_ID = some (ids ++ [Value.int u.id]) := by
              rw [get_col_update_cell_ne _ _ _ _ _ _ _ _ (by decide)]
              exact hcol1
            cases hw2 : (update_cell (setTable db USERS_TABLE
                ⟨t.ncols, t.rows ++ [[Value.int off, .int u.id, .str u.first_name,
                  .str u.last_name, .str u.username, .int 0, .int 0]]⟩) true
                CONFIG_TABLE 0 CONFIG_USERS_UUID_OFFSET (.int (off + 1))).result with
            | ok _ => exact hfin
            | error e => exact hfin
        · left
          have ha : append_row db ok USERS_TABLE
              [Value.int off, .int u.id, .str u.first_name, .str u.last_name,
               .str u.username, .int 0, .int 0] = ⟨.error .valueError, db, []⟩ := by
            simp only [append_row, hT, if_neg hw]
          simp only [start, hcol, hidx, register_new_user, hcfg, hti, ha]

/-- One `start` call preserves the no-duplicate invariant. -/
theorem start_step_nodup (db : DB) (ok : Bool) (u : TgUser)
    (h : UsersIdsNodup db) : UsersIdsNodup (start db ok u).db := by
  cases hcol : get_col db USERS_TABLE USERS_ID with
  | none =>
    rw [start_db_of_none db ok u hcol]
    exact h
  | some ids =>
    rcases start_ids_col db ok u ids hcol with hsame | ⟨hnm, happ⟩
    · intro ids2 h2
      rw [hsame] at h2
      cases h2
      exact h ids hcol
    · intro ids2 h2
      rw [happ] at h2
      cases h2
      exact nodup_concat ids (Value.int u.id) (h ids hcol) hnm

/-- Any run of `start` calls preserves the no-duplicate invariant. -/
theorem startSeq_nodup (calls : List (Bool × TgUser)) :
    ∀ db, UsersIdsNodup db → UsersIdsNodup (startSeq db calls) := by
  induction calls with
  | nil => exact fun _ h => h
  | cons c rest ih =>
    exact fun db h => ih (start db c.1 c.2).db (start_step_nodup db c.1 c.2 h)

/-- C3: after any finite sequence of `start` calls the users id column never
holds a platform id twice, and a `start` by an already-registered platform id
mutates no table at all. -/
theorem start_platform_id_unique (db : DB) (calls : List (Bool × TgUser))
    (ok : Bool) (u : TgUser) (ids : List Value) (h : UsersIdsNodup db) :
    UsersIdsNodup (startSeq db calls) ∧
    (get_col db USERS_TABLE USERS_ID = some ids → Value.int u.id ∈ ids →
      (start db ok u).db = db) := by
  constructor
  · exact startSeq_nodup calls db h
  · intro hcol hmem
    exact start_db_of_mem db ok u ids hcol hmem

/-- Witness for C3: a new user then a repeated user keep the sample id column
duplicate-free, and the repeated user's `start` leaves the cache unchanged. -/
theorem start_platform_id_unique_witness :
    UsersIdsNodup (startSeq sampleDB
      [(true, ⟨222, "Z", "Y", "zy"⟩), (true, ⟨111, "A", "B", "ab"⟩)]) ∧
    (start sampleDB true ⟨111, "A", "B", "ab"⟩).db = sampleDB := by
  have hnd : UsersIdsNodup sampleDB := by
    intro ids h
    rw [show get_col sampleDB USERS_TABLE USERS_ID = some [Value.int 111] from rfl] at h
    cases h
    decide
  have h := start_platform_id_unique sampleDB
    [(true, ⟨222, "Z", "Y", "zy"⟩), (true, ⟨111, "A", "B", "ab"⟩)]
    true ⟨111, "A", "B", "ab"⟩ [Value.int 111] hnd
  exact ⟨h.1, h.2 rfl (by decide)⟩

/-- Full reduction of `validate_enigma` on a correct answer: the user is
looked up, the current enigma resolved, the text is one of the answer tokens,
so the congratulation is sent, the current-enigma cell is zeroed, the attempt
row (with the copied last uuid and validated = 1) is appended, and the
conversation ends. -/
theorem validate_enigma_eq_match (db : DB) (uid : Int) (text : String)
    (user_ids : List Value) (i : Nat) (ut : Table) (urow : List Value) (cur : Value)
    (enigma_ids : List Value) (j : Nat) (ans : Value)
    (et : Table) (lrow : List Value) (lastU : Value)
    (hids : get_col db USERS_TABLE USERS_ID = some user_ids)
    (hi : idx_of? user_ids (.int uid) = some i)
    (hT : getTable? db USERS_TABLE = some ut)
    (hurow : ut.rows.get? i = some urow)
    (hcur : urow.get? USERS_CURRENT_ENIGMA = some cur)
    (heids : get_col db ENIGMA_TABLE ENIGMA_UUID = some enigma_ids)
    (hj : idx_of? enigma_ids cur = some j)
    (hans : get_cell db ENIGMA_TABLE j ENIGMA_ANSWER = some ans)
    (hET : getTable? db USERS_ENIGMA_TABLE = some et)
    (hnc : et.ncols = 6)
    (hlrow : et.rows.getLast? = some lrow)
    (hlastU : lrow.get? USERS_ENIGMA_UUID = some lastU)
    (hmem : text ∈ pySplit (Value.toText ans) ", ") :
    validate_enigma db true uid text =
      ⟨setTable (setTable db USERS_TABLE
          ⟨ut.ncols, ut.rows.set i (urow.set USERS_CURRENT_ENIGMA (.int 0))⟩)
          USERS_ENIGMA_TABLE
          ⟨et.ncols, et.rows ++ [[lastU, .int 0, .int uid, cur, .str text, .int 1]]⟩,
       [Effect.updateCell USERS_TABLE (i + 2) (USERS_CURRENT_ENIGMA + 1)
          (Value.int 0).toText] ++
         [Effect.appendRow USERS_ENIGMA_TABLE
          ([lastU, .int 0, .int uid, cur, .str text, .int 1].map Value.toText)],
       [MSG_CONGRATS], .ok CONVERSATION_END⟩ := by
  have hcell : get_cell db USERS_TABLE i USERS_CURRENT_ENIGMA = some cur := by
    simp only [get_cell, hT, hurow, hcur]
  have hupd := update_cell_eq db true USERS_TABLE i USERS_CURRENT_ENIGMA (Value.int 0)
    ut urow hT hurow (list_get?_lt urow USERS_CURRENT_ENIGMA cur hcur)
  have hET1 : getTable? (setTable db USERS_TABLE
      ⟨ut.ncols, ut.rows.set i (urow.set USERS_CURRENT_ENIGMA (Value.int 0))⟩)
      USERS_ENIGMA_TABLE = some et := by
    rw [getTable?_setTable_ne db USERS_TABLE USERS_ENIGMA_TABLE _ (by decide)]
    exact hET
  have hlast1 : get_cell_last_cell_of_col (setTable db USERS_TABLE
      ⟨ut.ncols, ut.rows.set i (urow.set USERS_CURRENT_ENIGMA (Value.int 0))⟩)
      USERS_ENIGMA_TABLE USERS_ENIGMA_UUID = some lastU := by
    simp only [get_cell_last_cell_of_col, hET1, hlrow, hlastU]
  have happ := append_row_eq (setTable db USERS_TABLE
      ⟨ut.ncols, ut.rows.set i (urow.set USERS_CURRENT_ENIGMA (Value.int 0))⟩)
      true USERS_ENIGMA_TABLE [lastU, .int 0, .int uid, cur, .str text, .int 1]
      et hET1 (by rw [hnc]; rfl)
  simp only [validate_enigma, hids, hi, hcell, heids, hj, hans, if_pos hmem, hupd,
    hlast1, happ, eq_self_iff_true, if_true]

/-- Full reduction of `validate_enigma` on a wrong answer: the apology is
sent, the attempt row (with the copied last uuid and validated = 0) is
appended, the users table is untouched, and the state stays
`EXPECT_ANSWER_TO_ENIGMA`. -/
theorem validate_enigma_eq_nomatch (db : DB) (uid : Int) (text : String)
    (user_ids : List Value) (i : Nat) (ut : Table) (urow : List Value) (cur : Value)
    (enigma_ids : List Value) (j : Nat) (ans : Value)
    (et : Table) (lrow : List Value) (lastU : Value)
    (hids : get_col db USERS_TABLE USERS_ID = some user_ids)
    (hi : idx_of? user_ids (.int uid) = some i)
    (hT : getTable? db USERS_TABLE = some ut)
    (hurow : ut.rows.get? i = some urow)
    (hcur : urow.get? USERS_CURRENT_ENIGMA = some cur)
    (heids : get_col db ENIGMA_TABLE ENIGMA_UUID = some enigma_ids)
    (hj : idx_of? enigma_ids cur = some j)
    (hans : get_cell db ENIGMA_TABLE j ENIGMA_ANSWER = some ans)
    (hET : getTable? db USERS_ENIGMA_TABLE = some et)
    (hnc : et.ncols = 6)
    (hlrow : et.rows.getLast? = some lrow)
    (hlastU : lrow.get? USERS_ENIGMA_UUID = some lastU)
    (hnmem : text ∉ pySplit (Value.toText ans) ", ") :
    validate_enigma db true uid text =
      ⟨setTable db USERS_ENIGMA_TABLE
          ⟨et.ncols, et.rows ++ [[lastU, .int 0, .int uid, cur, .str text, .int 0]]⟩,
       [Effect.appendRow USERS_ENIGMA_TABLE
          ([lastU, .int 0, .int uid, cur, .str text, .int 0].map Value.toText)],
       [MSG_WRONG], .ok EXPECT_ANSWER_TO_ENIGMA⟩ := by
  have hcell : get_cell db USERS_TABLE i USERS_CURRENT_ENIGMA = some cur := by
    simp only [get_cell, hT, hurow, hcur]
  have hlast0 : get_cell_last_cell_of_col db USERS_ENIGMA_TABLE USERS_ENIGMA_UUID =
      some lastU := by
    simp only [get_cell_last_cell_of_col, hET, hlrow, hlastU]
  have happ := append_row_eq db true USERS_ENIGMA_TABLE
    [lastU, .int 0, .int uid, cur, .str text, .int 0] et hET (by rw [hnc]; rfl)
  simp only [validate_enigma, hids, hi, hcell, heids, hj, hans, if_neg hnmem,
    hlast0, happ, eq_self_iff_true, if_true]

/-- An empty attempt ledger: the fresh-deployment state in which the
users_enigma worksheet holds only headers and loads as an empty frame. -/
def sampleAttemptsEmpty : Table := ⟨6, []⟩

/-- The sample cache with the empty attempt ledger. -/
def sampleDBFresh : DB :=
  [(CONFIG_TABLE, sampleConfig), (ENIGMA_TABLE, sampleEnigma),
   (USERS_TABLE, sampleUsers), (USERS_ENIGMA_TABLE, sampleAttemptsEmpty)]

/-- Counterexample for C1 as frozen: with an empty users_enigma table, a
correct answer gets the congratulation, but `get_cell_last_cell_of_col` then
evaluates `iat[-1, 0]` on the empty frame and raises `IndexError`: no attempt
record is appended and the conversation does not end. -/
theorem validate_enigma_empty_ledger_counterexample :
    (validate_enigma sampleDBFresh true 111 "bar").sent = [MSG_CONGRATS] ∧
    (validate_enigma sampleDBFresh true 111 "bar").state = .error .indexError ∧
    (validate_enigma sampleDBFresh true 111 "bar").state ≠ .ok CONVERSATION_END ∧
    getTable? (validate_enigma sampleDBFresh true 111 "bar").db USERS_ENIGMA_TABLE =
      some ⟨6, []⟩ :=
  ⟨rfl, rfl, fun h => Except.noConfusion h, rfl⟩

/-- C1 (amended): in `EXPECT_ANSWER`, for a user whose current enigma is a valid enigma
id, provided the users_enigma table already holds at least one row (the row
whose uuid the append copies) — if the submitted text equals (case-sensitively) one of the tokens of the
answer cell split on the literal ", ", `validate_enigma` sends the
congratulation, zeroes the user's current-enigma cell, appends an attempt row
with validated = 1 and ends the conversation; if it matches no token, it
sends the apology, appends an attempt row with validated = 0, and stays in
`EXPECT_ANSWER_TO_ENIGMA`. -/
theorem validate_enigma_answer_flow (db : DB) (uid : Int) (text : String)
    (user_ids : List Value) (i : Nat) (ut : Table) (urow : List Value) (cur : Value)
    (enigma_ids : List Value) (j : Nat) (ans : Value)
    (et : Table) (lrow : List Value) (lastU : Value)
    (hids : get_col db USERS_TABLE USERS_ID = some user_ids)
    (hi : idx_of? user_ids (.int uid) = some i)
    (hT : getTable? db USERS_TABLE = some ut)
    (hurow : ut.rows.get? i = some urow)
    (hcur : urow.get? USERS_CURRENT_ENIGMA = some cur)
    (heids : get_col db ENIGMA_TABLE ENIGMA_UUID = some enigma_ids)
    (hj : idx_of? enigma_ids cur = some j)
    (hans : get_cell db ENIGMA_TABLE j ENIGMA_ANSWER = some ans)
    (hET : getTable? db USERS_ENIGMA_TABLE = some et)
    (hnc : et.ncols = 6)
    (hlrow : et.rows.getLast? = some lrow)
    (hlastU : lrow.get? USERS_ENIGMA_UUID = some lastU) :
    (text ∈ pySplit (Value.toText ans) ", " →
      (validate_enigma db true uid text).sent = [MSG_CONGRATS] ∧
      (validate_enigma db true uid text).state = .ok CONVERSATION_END ∧
      get_cell (validate_enigma db true uid text).db USERS_TABLE i
        USERS_CURRENT_ENIGMA = some (.int 0) ∧
      getTable? (validate_enigma db true uid text).db USERS_ENIGMA_TABLE =
        some ⟨et.ncols, et.rows ++ [[lastU, .int 0, .int uid, cur, .str text, .int 1]]⟩) ∧
    (text ∉ pySplit (Value.toText ans) ", " →
      (validate_enigma db true uid text).sent = [MSG_WRONG] ∧
      (validate_enigma db true uid text).state = .ok EXPECT_ANSWER_TO_ENIGMA ∧
      getTable? (validate_enigma db true uid text).db USERS_ENIGMA_TABLE =
        some ⟨et.ncols, et.rows ++ [[lastU, .int 0, .int uid, cur, .str text, .int 0]]⟩) := by
  constructor
  · intro hmem
    rw [validate_enigma_eq_match db uid text user_ids i ut urow cur enigma_ids j ans
      et lrow lastU hids hi hT hurow hcur heids hj hans hET hnc hlrow hlastU hmem]
    refine ⟨rfl, rfl, ?_, ?_⟩
    · have h1 : getTable? (setTable (setTable db USERS_TABLE
          ⟨ut.ncols, ut.rows.set i (urow.set USERS_CURRENT_ENIGMA (Value.int 0))⟩)
          USERS_ENIGMA_TABLE
          ⟨et.ncols, et.rows ++ [[lastU, .int 0, .int uid, cur, .str text, .int 1]]⟩)
          USERS_TABLE =
          some ⟨ut.ncols, ut.rows.set i (urow.set USERS_CURRENT_ENIGMA (Value.int 0))⟩ := by
        rw [getTable?_setTable_ne _ USERS_ENIGMA_TABLE USERS_TABLE _ (by decide)]
        exact getTable?_setTable_self db USERS_TABLE _ ut hT
      have h2 : (ut.rows.set i (urow.set USERS_CURRENT_ENIGMA (Value.int 0))).get? i =
          some (urow.set USERS_CURRENT_ENIGMA (Value.int 0)) :=
        list_get?_set_self ut.rows i _ (list_get?_lt ut.rows i urow hurow)
      have h3 : (urow.set USERS_CURRENT_ENIGMA (Value.int 0)).get? USERS_CURRENT_ENIGMA =
          some (Value.int 0) :=
        list_get?_set_self urow USERS_CURRENT_ENIGMA (Value.int 0)
          (list_get?_lt urow USERS_CURRENT_ENIGMA cur hcur)
      simp only [get_cell, h1, h2, h3]
    · have hET1 : getTable? (setTable db USERS_TABLE
          ⟨ut.ncols, ut.rows.set i (urow.set USERS_CURRENT_ENIGMA (Value.int 0))⟩)
          USERS_ENIGMA_TABLE = some et := by
        rw [getTable?_setTable_ne db USERS_TABLE USERS_ENIGMA_TABLE _ (by decide)]
        exact hET
      exact getTable?_setTable_self _ USERS_ENIGMA_TABLE _ et hET1
  · intro hnmem
    rw [validate_enigma_eq_nomatch db uid text user_ids i ut urow cur enigma_ids j ans
      et lrow lastU hids hi hT hurow hcur heids hj hans hET hnc hlrow hlastU hnmem]
    exact ⟨rfl, rfl, getTable?_setTable_self db USERS_ENIGMA_TABLE _ et hET⟩

/-- Witness for C1: on the sample cache (current enigma 7, answers
"foo, bar"), submitting "bar" congratulates, zeroes the current enigma, logs
validated = 1 and ends; submitting "Bar" apologizes, logs validated = 0 and
stays. -/
theorem validate_enigma_answer_flow_witness :
    ((validate_enigma sampleDB true 111 "bar").sent = [MSG_CONGRATS] ∧
     (validate_enigma sampleDB true 111 "bar").state = .ok CONVERSATION_END ∧
     get_cell (validate_enigma sampleDB true 111 "bar").db USERS_TABLE 0
       USERS_CURRENT_ENIGMA = some (.int 0) ∧
     getTable? (validate_enigma sampleDB true 111 "bar").db USERS_ENIGMA_TABLE =
       some ⟨6, [[.int 3, .int 0, .int 111, .int 9, .str "x", .int 1],
                 [.int 3, .int 0, .int 111, .int 7, .str "bar", .int 1]]⟩) ∧
    ((validate_enigma sampleDB true 111 "Bar").sent = [MSG_WRONG] ∧
     (validate_enigma sampleDB true 111 "Bar").state = .ok EXPECT_ANSWER_TO_ENIGMA ∧
     getTable? (validate_enigma sampleDB true 111 "Bar").db USERS_ENIGMA_TABLE =
       some ⟨6, [[.int 3, .int 0, .int 111, .int 9, .str "x", .int 1],
                 [.int 3, .int 0, .int 111, .int 7, .str "Bar", .int 0]]⟩) := by
  have h1 := validate_enigma_answer_flow sampleDB 111 "bar"
    [Value.int 111] 0 sampleUsers
    [.int 0, .int 111, .str "A", .str "B", .str "ab", .int 0, .int 7] (.int 7)
    [Value.int 7] 0 (.str "foo, bar") sampleAttempts
    [.int 3, .int 0, .int 111, .int 9, .str "x", .int 1] (.int 3)
    rfl rfl rfl rfl rfl rfl rfl rfl rfl rfl rfl rfl
  have h2 := validate_enigma_answer_flow sampleDB 111 "Bar"
    [Value.int 111] 0 sampleUsers
    [.int 0, .int 111, .str "A", .str "B", .str "ab", .int 0, .int 7] (.int 7)
    [Value.int 7] 0 (.str "foo, bar") sampleAttempts
    [.int 3, .int 0, .int 111, .int 9, .str "x", .int 1] (.int 3)
    rfl rfl rfl rfl rfl rfl rfl rfl rfl rfl rfl rfl
  exact ⟨h1.1 (by decide), h2.2 (by decide)⟩

/-- C8: each attempt row `validate_enigma` appends (right or wrong answer)
carries in its uuid cell the value copied from the uuid cell of the last row
already in the table — copied, not incremented, so consecutive attempt
records share the same uuid value: the last-cell-of-column read of the uuid
column is unchanged by the append. -/
theorem attempt_uuid_copied_from_last_row (db : DB) (uid : Int) (text : String)
    (user_ids : List Value) (i : Nat) (ut : Table) (urow : List Value) (cur : Value)
    (enigma_ids : List Value) (j : Nat) (ans : Value)
    (et : Table) (lrow : List Value) (lastU : Value)
    (hids : get_col db USERS_TABLE USERS_ID = some user_ids)
    (hi : idx_of? user_ids (.int uid) = some i)
    (hT : getTable? db USERS_TABLE = some ut)
    (hurow : ut.rows.get? i = some urow)
    (hcur : urow.get? USERS_CURRENT_ENIGMA = some cur)
    (heids : get_col db ENIGMA_TABLE ENIGMA_UUID = some enigma_ids)
    (hj : idx_of? enigma_ids cur = some j)
    (hans : get_cell db ENIGMA_TABLE j ENIGMA_ANSWER = some ans)
    (hET : getTable? db USERS_ENIGMA_TABLE = some et)
    (hnc : et.ncols = 6)
    (hlrow : et.rows.getLast? = some lrow)
    (hlastU : lrow.get? USERS_ENIGMA_UUID = some lastU) :
    get_cell_last_cell_of_col db USERS_ENIGMA_TABLE USERS_ENIGMA_UUID = some lastU ∧
    ∃ rec : List Value,
      getTable? (validate_enigma db true uid text).db USERS_ENIGMA_TABLE =
        some ⟨et.ncols, et.rows ++ [rec]⟩ ∧
      rec.get? USERS_ENIGMA_UUID = some lastU ∧
      get_cell_last_cell_of_col (validate_enigma db true uid text).db
        USERS_ENIGMA_TABLE USERS_ENIGMA_UUID = some lastU := by
  have hlast0 : get_cell_last_cell_of_col db USERS_ENIGMA_TABLE USERS_ENIGMA_UUID =
      some lastU := by
    simp only [get_cell_last_cell_of_col, hET, hlrow, hlastU]
  refine ⟨hlast0, ?_⟩
  by_cases hmem : text ∈ pySplit (Value.toText ans) ", "
  · refine ⟨[lastU, .int 0, .int uid, cur, .str text, .int 1], ?_, rfl, ?_⟩
    · rw [validate_enigma_eq_match db uid text user_ids i ut urow cur enigma_ids j ans
        et lrow lastU hids hi hT hurow hcur heids hj hans hET hnc hlrow hlastU hmem]
      have hET1 : getTable? (setTable db USERS_TABLE
          ⟨ut.ncols, ut.rows.set i (urow.set USERS_CURRENT_ENIGMA (Value.int 0))⟩)
          USERS_ENIGMA_TABLE = some et := by
        rw [getTable?_setTable_ne db USERS_TABLE USERS_ENIGMA_TABLE _ (by decide)]
        exact hET
      exact getTable?_setTable_self _ USERS_ENIGMA_TABLE _ et hET1
    · rw [validate_enigma_eq_match db uid text user_ids i ut urow cur enigma_ids j ans
        et lrow lastU hids hi hT hurow hcur heids hj hans hET hnc hlrow hlastU hmem]
      have hET1 : getTable? (setTable db USERS_TABLE
          ⟨ut.ncols, ut.rows.set i (urow.set USERS_CURRENT_ENIGMA (Value.int 0))⟩)
          USERS_ENIGMA_TABLE = some et := by
        rw [getTable?_setTable_ne db USERS_TABLE USERS_ENIGMA_TABLE _ (by decide)]
        exact hET
      have h1 := getTable?_setTable_self (setTable db USERS_TABLE
          ⟨ut.ncols, ut.rows.set i (urow.set USERS_CURRENT_ENIGMA (Value.int 0))⟩)
          USERS_ENIGMA_TABLE
          ⟨et.ncols, et.rows ++ [[lastU, .int 0, .int uid, cur, .str text, .int 1]]⟩
          et hET1
      simp only [get_cell_last_cell_of_col, h1,
        list_getLast?_concat et.rows [lastU, .int 0, .int uid, cur, .str text, .int 1]]
      rfl
  · refine ⟨[lastU, .int 0, .int uid, cur, .str text, .int 0], ?_, rfl, ?_⟩
    · rw [validate_enigma_eq_nomatch db uid text user_ids i ut urow cur enigma_ids j ans
        et lrow lastU hids hi hT hurow hcur heids hj hans hET hnc hlrow hlastU hmem]
      exact getTable?_setTable_self db USERS_ENIGMA_TABLE _ et hET
    · rw [validate_enigma_eq_nomatch db uid text user_ids i ut urow cur enigma_ids j ans
        et lrow lastU hids hi hT hurow hcur heids hj hans hET hnc hlrow hlastU hmem]
      have h1 := getTable?_setTable_self db USERS_ENIGMA_TABLE
          ⟨et.ncols, et.rows ++ [[lastU, .int 0, .int uid, cur, .str text, .int 0]]⟩
          et hET
      simp only [get_cell_last_cell_of_col, h1,
        list_getLast?_concat et.rows [lastU, .int 0, .int uid, cur, .str text, .int 0]]
      rfl

/-- Witness for C8: on the sample cache the last attempt uuid is 3 before and
after a wrong-answer submission, and the appended row's uuid cell is 3. -/
theorem attempt_uuid_copied_from_last_row_witness :
    get_cell_last_cell_of_col sampleDB USERS_ENIGMA_TABLE USERS_ENIGMA_UUID =
      some (.int 3) ∧
    ∃ rec : List Value,
      getTable? (validate_enigma sampleDB true 111 "nope").db USERS_ENIGMA_TABLE =
        some ⟨6, [[.int 3, .int 0, .int 111, .int 9, .str "x", .int 1], rec]⟩ ∧
      rec.get? USERS_ENIGMA_UUID = some (.int 3) ∧
      get_cell_last_cell_of_col (validate_enigma sampleDB true 111 "nope").db
        USERS_ENIGMA_TABLE USERS_ENIGMA_UUID = some (.int 3) :=
  attempt_uuid_copied_from_last_row sampleDB 111 "nope"
    [Value.int 111] 0 sampleUsers
    [.int 0, .int 111, .str "A", .str "B", .str "ab", .int 0, .int 7] (.int 7)
    [Value.int 7] 0 (.str "foo, bar") sampleAttempts
    [.int 3, .int 0, .int 111, .int 9, .str "x", .int 1] (.int 3)
    rfl rfl rfl rfl rfl rfl rfl rfl rfl rfl rfl rfl

/-- An attempt table in which user 111 already solved enigma 7 with "foo". -/
def sampleAttemptsSolved : Table :=
  ⟨6, [[.int 3, .int 0, .int 111, .int 7, .str "foo", .int 1]]⟩

/-- The sample cache with that attempt table. -/
def sampleDBSolved : DB :=
  [(CONFIG_TABLE, sampleConfig), (ENIGMA_TABLE, sampleEnigma),
   (USERS_TABLE, sampleUsers), (USERS_ENIGMA_TABLE, sampleAttemptsSolved)]

/-- C4: in `EXPECT_ENIGMA_ID`, a valid enigma id that this user already
solved (the attempt table holds a row for this user and enigma whose
validated cell is truthy) makes `confirm_and_send_enigma` show the rendered
enigma plus the previously accepted answer taken from the first such record,
re-prompt, and return `EXPECT_ENIGMA_ID`; the cache is unchanged, so the
user's current-enigma cell is never set and the state never becomes
`EXPECT_ANSWER_TO_ENIGMA`. -/
theorem confirm_already_solved_stays (db : DB) (ok : Bool) (uid : Int)
    (text : String) (enigma_ids : List Value) (attempts : List (List Value))
    (prow : List Value) (tl : List (List Value)) (msg : String)
    (h1 : pyIsDigit text = true)
    (h2 : get_col db ENIGMA_TABLE ENIGMA_UUID = some enigma_ids)
    (h3 : Value.int (Int.ofNat (pyToNat text)) ∈ enigma_ids)
    (h4 : get_table db USERS_ENIGMA_TABLE = some attempts)
    (h5 : attempts.filter (attemptMatches uid (Int.ofNat (pyToNat text))) = prow :: tl)
    (h6 : construct_enigma_message db (Int.ofNat (pyToNat text)) = .ok msg) :
    confirm_and_send_enigma db ok uid text =
      ⟨db, [],
       [msg,
        MSG_ALREADY_PRE ++ (prow.getD USERS_ENIGMA_ATTEMPT_DATA (.str "")).toText ++
          MSG_ALREADY_POST,
        PROMPT_ENIGMA_ID],
       .ok EXPECT_ENIGMA_ID⟩ := by
  obtain ⟨hw, hd⟩ := pyIsDigit_ascii_case text h1
  simp only [confirm_and_send_enigma, hw, hd, eq_self_iff_true, if_true, h2, h3,
    not_true, if_false, h4, h5, h6]

/-- Witness for C4: user 111 already solved enigma 7 with "foo"; sending "7"
shows the enigma, the prior answer, re-prompts, and mutates nothing. -/
theorem confirm_already_solved_stays_witness :
    confirm_and_send_enigma sampleDBSolved true 111 "7" =
      ⟨sampleDBSolved, [],
       ["<i>Enigma 7</i>" ++ "\n" ++ "<b>N</b>" ++ "\n" ++ "D",
        MSG_ALREADY_PRE ++ "foo" ++ MSG_ALREADY_POST, PROMPT_ENIGMA_ID],
       .ok EXPECT_ENIGMA_ID⟩ :=
  confirm_already_solved_stays sampleDBSolved true 111 "7"
    [Value.int 7] [[Value.int 3, .int 0, .int 111, .int 7, .str "foo", .int 1]]
    [Value.int 3, .int 0, .int 111, .int 7, .str "foo", .int 1] []
    ("<i>Enigma 7</i>" ++ "\n" ++ "<b>N</b>" ++ "\n" ++ "D")
    (by decide) rfl (by decide) rfl (by decide) rfl

/-- C10: handling an enigma-flow message needs the sender in the users table.
With a valid, unsolved id in `EXPECT_ENIGMA_ID`, or with any text in
`EXPECT_ANSWER`, a sender whose platform id is absent from the users id
column makes the handler raise the `ValueError` of `list.index` instead of
replying or re-prompting: nothing is sent and no table is mutated. -/
theorem handlers_require_registered_user (db : DB) (ok : Bool) (uid : Int)
    (text : String) (enigma_ids user_ids : List Value)
    (attempts : List (List Value))
    (h1 : pyIsDigit text = true)
    (h2 : get_col db ENIGMA_TABLE ENIGMA_UUID = some enigma_ids)
    (h3 : Value.int (Int.ofNat (pyToNat text)) ∈ enigma_ids)
    (h4 : get_table db USERS_ENIGMA_TABLE = some attempts)
    (h5 : attempts.filter (attemptMatches uid (Int.ofNat (pyToNat text))) = [])
    (h6 : get_col db USERS_TABLE USERS_ID = some user_ids)
    (h7 : Value.int uid ∉ user_ids) :
    confirm_and_send_enigma db ok uid text = ⟨db, [], [], .error .valueError⟩ ∧
    validate_enigma db ok uid text = ⟨db, [], [], .error .valueError⟩ := by
  have hidx : idx_of? user_ids (Value.int uid) = none :=
    (idx_of?_eq_none user_ids (Value.int uid)).mpr h7
  obtain ⟨hw, hd⟩ := pyIsDigit_ascii_case text h1
  constructor
  · simp only [confirm_and_send_enigma, hw, hd, eq_self_iff_true, if_true, h2, h3,
      not_true, if_false, h4, h5, h6, hidx]
  · simp only [validate_enigma, h6, hidx]

/-- Witness for C10: unregistered sender 222 picks the valid, unsolved id 7,
and also submits an answer text; both handlers raise with nothing sent and
the cache unchanged. -/
theorem handlers_require_registered_user_witness :
    confirm_and_send_enigma sampleDB true 222 "7" =
      ⟨sampleDB, [], [], .error .valueError⟩ ∧
    validate_enigma sampleDB true 222 "7" = ⟨sampleDB, [], [], .error .valueError⟩ :=
  handlers_require_registered_user sampleDB true 222 "7" [Value.int 7]
    [Value.int 111] [[Value.int 3, .int 0, .int 111, .int 9, .str "x", .int 1]]
    (by decide) rfl (by decide) rfl (by decide) rfl (by decide)

end FlushOld
